import Mathlib

/-!
Shallow embedding of the TokenInjectableDockerBuilder custom-resource
pipeline: the completion poller (`isComplete/isComplete.js`), the trigger
handler (`src/onEventHandler/index.js`), and the buildspec assembly done by
the construct (`src/index.ts`).  The AWS services the handlers talk to
(CodeBuild and CloudWatch Logs) are modelled as response oracles, and each
handler additionally returns the list of API calls it issued, in order.
-/

/-- JavaScript truthiness of an optional string value: `undefined` and the
empty string are falsy, any other string is truthy. -/
def jsTruthy : Option String → Bool
  | none => false
  | some s => s != ""

/-- JavaScript `a || b` for an optional string `a` with fallback `b`
(the fallback is taken when `a` is `undefined` or the empty string). -/
def jsOrElse (a : Option String) (b : String) : String :=
  match a with
  | none => b
  | some s => if s = "" then b else s

namespace IsComplete

/-- The `ResourceProperties` object of a custom-resource event; the
`ProjectName` field may be absent. -/
structure ResourceProps where
  ProjectName : Option String
deriving DecidableEq

/-- The poll event delivered to the isComplete handler. -/
structure PollEvent where
  RequestType : String
  ResourceProperties : Option ResourceProps
deriving DecidableEq

/-- The `logs` object of a CodeBuild build description. -/
structure LogsInfo where
  groupName : Option String
  streamName : Option String
deriving DecidableEq

/-- A CodeBuild build description, as read by the handler. -/
structure Build where
  buildStatus : String
  logs : Option LogsInfo
deriving DecidableEq

/-- Response of `ListBuildsForProjectCommand` (`ids` may be absent). -/
structure ListBuildsResp where
  ids : Option (List String)
deriving DecidableEq

/-- Response of `BatchGetBuildsCommand` (`builds` may be absent). -/
structure BatchGetBuildsResp where
  builds : Option (List Build)

/-- One CloudWatch Logs event, of which the handler reads `message`. -/
structure LogEvent where
  message : String
deriving DecidableEq

/-- Response of `GetLogEventsCommand` (`events` may be absent). -/
structure GetLogEventsResp where
  events : Option (List LogEvent)
deriving DecidableEq

/-- The Lambda environment of the isComplete handler: `process.env.IMAGE_TAG`. -/
structure Env where
  IMAGE_TAG : Option String
deriving DecidableEq

/-- One AWS API call issued by the poller, with the request parameters the
handler passes (`sortOrder`/`maxResults` for the list call, and
`startFromHead`/`limit` for the log fetch). -/
inductive ApiCall where
  | listBuildsForProject (projectName : String) (sortOrder : String) (maxResults : Nat)
  | batchGetBuilds (ids : List String)
  | getLogEvents (logGroupName logStreamName : String) (startFromHead : Bool) (limit : Nat)
deriving DecidableEq

/-- Oracle for the AWS responses observed by one poller invocation.  The
log fetch may fail, which in the JavaScript source surfaces as a thrown
exception of the SDK call. -/
structure AwsWorld where
  listBuildsForProject : String → ListBuildsResp
  batchGetBuilds : List String → BatchGetBuildsResp
  getLogEvents : String → String → Bool → Nat → Except String GetLogEventsResp

/-- The `Data` object returned on success: `{ ImageTag: process.env.IMAGE_TAG }`. -/
structure PollData where
  ImageTag : Option String
deriving DecidableEq

/-- The handler's return value: `IsComplete` plus an optional `Data` object. -/
structure PollResult where
  IsComplete : Bool
  Data : Option PollData
deriving DecidableEq

/-- Embedding of `exports.handler` of `isComplete/isComplete.js`.  A thrown
`Error(msg)` is modelled as `.error msg`; the surrounding `try/catch`
rethrows unchanged and therefore does not alter the result.  The second
component is the trace of AWS calls issued, in order. -/
def handler (w : AwsWorld) (env : Env) (event : PollEvent) :
    Except String PollResult × List ApiCall :=
  match event.ResourceProperties.bind (·.ProjectName) with
  | none => (.error "Missing ProjectName in ResourceProperties", [])
  | some projectName =>
    if projectName = "" then
      (.error "Missing ProjectName in ResourceProperties", [])
    else if event.RequestType = "Delete" then
      (.ok { IsComplete := true, Data := none }, [])
    else
      let listCall := ApiCall.listBuildsForProject projectName "DESCENDING" 1
      match (w.listBuildsForProject projectName).ids with
      | none => (.error ("No builds found for project: " ++ projectName), [listCall])
      | some [] => (.error ("No builds found for project: " ++ projectName), [listCall])
      | some (buildId :: _) =>
        let batchCall := ApiCall.batchGetBuilds [buildId]
        match (w.batchGetBuilds [buildId]).builds.bind List.head? with
        | none =>
          (.error ("Build details not found for Build ID: " ++ buildId), [listCall, batchCall])
        | some build =>
          let buildStatus := build.buildStatus
          if buildStatus = "IN_PROGRESS" then
            (.ok { IsComplete := false, Data := none }, [listCall, batchCall])
          else if buildStatus = "SUCCEEDED" then
            (.ok { IsComplete := true, Data := some { ImageTag := env.IMAGE_TAG } },
              [listCall, batchCall])
          else if ["FAILED", "FAULT", "STOPPED", "TIMED_OUT"].contains buildStatus then
            let logsInfo := build.logs
            let groupName? := logsInfo.bind (·.groupName)
            let streamName? := logsInfo.bind (·.streamName)
            if jsTruthy groupName? && jsTruthy streamName? then
              let groupName := groupName?.getD ""
              let streamName := streamName?.getD ""
              let logCall := ApiCall.getLogEvents groupName streamName false 5
              match w.getLogEvents groupName streamName false 5 with
              | .error e => (.error e, [listCall, batchCall, logCall])
              | .ok logResp =>
                let logEvents := logResp.events.getD []
                let lastFive := String.intercalate "\n" ((logEvents.map (·.message)).reverse)
                (.error ("Build failed with status " ++ buildStatus ++ ". Last logs:\n" ++ lastFive),
                  [listCall, batchCall, logCall])
            else
              (.error ("Build failed with status: " ++ buildStatus ++ ", but no logs found."),
                [listCall, batchCall])
          else
            (.error ("Unknown build status: " ++ buildStatus), [listCall, batchCall])

/-- Modelled from the spec: the Log Store API (CloudWatch Logs, an external
collaborator whose code is not in this repository) — `getLogEvents(logGroup,
logStream, fromTail=true, limit)` returns the last `limit` events of the
stream; reading from the tail, the latest log events are returned first
(newest to oldest).  `msgs` is the full stream in chronological order. -/
def logStoreTailEvents (msgs : List String) (limit : Nat) : List LogEvent :=
  (msgs.reverse.take limit).map LogEvent.mk

end IsComplete

namespace OnEvent

/-- The `ResourceProperties` object of the trigger event. -/
structure ResourceProps where
  ProjectName : Option String
deriving DecidableEq

/-- The lifecycle event delivered to the onEvent (trigger) handler. -/
structure Event where
  RequestType : String
  PhysicalResourceId : Option String
  LogicalResourceId : String
  ResourceProperties : Option ResourceProps
deriving DecidableEq

/-- The trigger handler's return value: the resource identifier, a `Data`
object (always `{}` in the source, modelled as a key/value list), and an
optional `Reason` (present only on the start-build failure path). -/
structure Result where
  PhysicalResourceId : String
  Data : List (String × String)
  Reason : Option String
deriving DecidableEq

/-- The single kind of AWS call the trigger handler can issue. -/
inductive ApiCall where
  | startBuild (projectName : Option String)
deriving DecidableEq

/-- Oracle for the `StartBuildCommand` outcome (success or SDK error). -/
structure CodeBuildWorld where
  startBuild : Option String → Except String Unit

/-- Embedding of `exports.handler` of `src/onEventHandler/index.js`.  The
`try/catch` wraps only the `StartBuildCommand` send; accessing
`event.ResourceProperties.ProjectName` when `ResourceProperties` is absent
throws a `TypeError` outside the `try`, which propagates unhandled. -/
def handler (w : CodeBuildWorld) (event : Event) : Except String Result × List ApiCall :=
  let physicalResourceId := jsOrElse event.PhysicalResourceId event.LogicalResourceId
  if event.RequestType = "Create" ∨ event.RequestType = "Update" then
    match event.ResourceProperties with
    | none =>
      (.error "TypeError: Cannot read properties of undefined (reading 'ProjectName')", [])
    | some rp =>
      match w.startBuild rp.ProjectName with
      | .error e =>
        (.ok { PhysicalResourceId := physicalResourceId, Data := [], Reason := some e },
          [.startBuild rp.ProjectName])
      | .ok _ =>
        (.ok { PhysicalResourceId := physicalResourceId, Data := [], Reason := none },
          [.startBuild rp.ProjectName])
  else
    (.ok { PhysicalResourceId := physicalResourceId, Data := [], Reason := none }, [])

end OnEvent

namespace Builder

/-- The construct properties of `TokenInjectableDockerBuilder` that shape the
buildspec: `buildArgs` as an entry list (`Object.entries` order), the
optional Docker-login secret ARN, and the optional extra command lists. -/
structure BuilderProps where
  buildArgs : Option (List (String × String))
  dockerLoginSecretArn : Option String
  installCommands : Option (List String)
  preBuildCommands : Option (List String)

/-- Embedding of the build-argument flag generation of `src/index.ts`:
each entry `(k, v)` of `buildArgs` is rendered as the template
`--build-arg k=v` and the fragments are joined with single spaces. -/
def buildArgsString (l : List (String × String)) : String :=
  String.intercalate " " (l.map fun kv => "--build-arg " ++ kv.1 ++ "=" ++ kv.2)

/-- The full `buildArgsString` expression: empty string when `buildArgs` is
not provided. -/
def buildArgsStringOf (buildArgs : Option (List (String × String))) : String :=
  match buildArgs with
  | some l => buildArgsString l
  | none => ""

/-- The `dockerLoginCommands` array of `src/index.ts` (ternary on the
truthiness of `dockerLoginSecretArn`). -/
def dockerLoginCommands (arn? : Option String) : List String :=
  if jsTruthy arn? then
    let arn := arn?.getD ""
    [ "echo \"Retrieving Docker credentials...\"",
      "apt-get update -y && apt-get install -y jq",
      "DOCKER_USERNAME=$(aws secretsmanager get-secret-value --secret-id " ++ arn
        ++ " --query SecretString --output text | jq -r .username)",
      "DOCKER_PASSWORD=$(aws secretsmanager get-secret-value --secret-id " ++ arn
        ++ " --query SecretString --output text | jq -r .password)",
      "echo \"Logging in to Docker Hub...\"",
      "echo $DOCKER_PASSWORD | docker login --username $DOCKER_USERNAME --password-stdin" ]
  else
    ["echo \"No Docker credentials. Skipping Docker Hub login.\""]

/-- The command phases of the `buildSpecObj` document. -/
structure BuildSpecPhases where
  install : List String
  pre_build : List String
  build : List String
  post_build : List String

/-- The `buildSpecObj` phases assembled in the constructor of
`TokenInjectableDockerBuilder`, as a function of the construct's fixed
`imageTag` and its properties. -/
def buildSpecObj (imageTag : String) (p : BuilderProps) : BuildSpecPhases where
  install := "echo \"Beginning install phase...\"" :: (p.installCommands.getD [])
  pre_build :=
    (p.preBuildCommands.getD []) ++ dockerLoginCommands p.dockerLoginSecretArn ++
      [ "echo \"Retrieving AWS Account ID...\"",
        "export ACCOUNT_ID=$(aws sts get-caller-identity --query Account --output text)",
        "echo \"Logging into Amazon ECR...\"",
        "aws ecr get-login-password --region $AWS_DEFAULT_REGION | docker login --username AWS --password-stdin $ACCOUNT_ID.dkr.ecr.$AWS_DEFAULT_REGION.amazonaws.com" ]
  build :=
    [ "echo \"Building Docker image with tag " ++ imageTag ++ "...\"",
      "docker build " ++ buildArgsStringOf p.buildArgs ++ " -t $ECR_REPO_URI:" ++ imageTag
        ++ " $CODEBUILD_SRC_DIR" ]
  post_build :=
    [ "echo \"Pushing Docker image with tag " ++ imageTag ++ "...\"",
      "docker push $ECR_REPO_URI:" ++ imageTag ]

/-- The environment the construct gives the isComplete Lambda:
`environment: { IMAGE_TAG: imageTag }`. -/
def isCompleteEnvironment (imageTag : String) : IsComplete.Env :=
  { IMAGE_TAG := some imageTag }

/-- Splits a character list at every occurrence of the separator `c`
(separators are dropped; adjacent separators yield empty pieces). -/
def splitOnChar (c : Char) : List Char → List (List Char)
  | [] => [[]]
  | x :: xs =>
    if x = c then [] :: splitOnChar c xs
    else
      match splitOnChar c xs with
      | t :: ts => (x :: t) :: ts
      | [] => [[x]]

/-- Splits a token at its first `=` into a key/value pair (the whole token
becomes the key if it has no `=`). -/
def splitKV : List Char → List Char × List Char
  | [] => ([], [])
  | c :: rest =>
    if c = '=' then ([], rest)
    else
      let p := splitKV rest
      (c :: p.1, p.2)

/-- Pairs a token stream back into build-argument entries: every
`--build-arg` token consumes the following token as a `KEY=VALUE` pair;
other tokens are skipped. -/
def pairTokens : List (List Char) → List (List Char × List Char)
  | [] => []
  | [_] => []
  | f :: kv :: rest =>
    if f = "--build-arg".toList then splitKV kv :: pairTokens rest
    else pairTokens (kv :: rest)

/-- Parses a build-argument flag string back into an entry list: tokenizes
on spaces and pairs each `--build-arg` flag with its `KEY=VALUE` token. -/
def parseBuildArgs (s : String) : List (String × String) :=
  (pairTokens (splitOnChar ' ' s.data)).map fun p => (String.mk p.1, String.mk p.2)

/-- Joins character lists with a single separator character between pieces. -/
def sepJoin (sep : Char) : List (List Char) → List Char
  | [] => []
  | [x] => x
  | x :: xs => x ++ sep :: sepJoin sep xs

/-- Whether `pat` occurs as a contiguous run at some position of `l`. -/
def containsSub (pat : List Char) : List Char → Bool
  | [] => pat.isEmpty
  | x :: xs => pat.isPrefixOf (x :: xs) || containsSub pat xs

/-- Executable substring containment on strings. -/
def containsSubstring (s pat : String) : Bool :=
  containsSub pat.data s.data

end Builder

namespace Fixtures

/-- A CodeBuild/Logs world whose project has exactly one build, described by
`b`, and whose log fetch returns the outcome `logResp`. -/
def world (b : IsComplete.Build) (logResp : Except String IsComplete.GetLogEventsResp) :
    IsComplete.AwsWorld where
  listBuildsForProject := fun _ => { ids := some ["build-1"] }
  batchGetBuilds := fun _ => { builds := some [b] }
  getLogEvents := fun _ _ _ _ => logResp

/-- A build that finished successfully. -/
def succBuild : IsComplete.Build := { buildStatus := "SUCCEEDED", logs := none }

/-- A build that is still running. -/
def progressBuild : IsComplete.Build := { buildStatus := "IN_PROGRESS", logs := none }

/-- A failed build whose log group and stream are both reported. -/
def failBuild : IsComplete.Build :=
  { buildStatus := "FAILED",
    logs := some { groupName := some "log-group", streamName := some "log-stream" } }

/-- A failed build with no reported log location. -/
def failBuildNoLogs : IsComplete.Build := { buildStatus := "FAILED", logs := none }

/-- A log stream holding seven chronological lines. -/
def sevenLogLines : List String :=
  ["line1", "line2", "line3", "line4", "line5", "line6", "line7"]

/-- A successful log fetch returning the tail of `sevenLogLines`. -/
def fetchSeven : Except String IsComplete.GetLogEventsResp :=
  .ok { events := some (IsComplete.logStoreTailEvents sevenLogLines 5) }

/-- A create-poll event with a well-formed project name. -/
def createEvent : IsComplete.PollEvent :=
  { RequestType := "Create", ResourceProperties := some { ProjectName := some "project-1" } }

/-- A delete-poll event with a well-formed project name. -/
def deleteEvent : IsComplete.PollEvent :=
  { RequestType := "Delete", ResourceProperties := some { ProjectName := some "project-1" } }

/-- An update-poll event whose payload lacks `ProjectName`. -/
def missingNameEvent : IsComplete.PollEvent :=
  { RequestType := "Update", ResourceProperties := some { ProjectName := none } }

/-- Construct properties with one build argument and no optional extras. -/
def sampleProps : Builder.BuilderProps :=
  { buildArgs := some [("ENV", "test")], dockerLoginSecretArn := none,
    installCommands := none, preBuildCommands := none }

/-- A trigger-side world whose start-build call is rejected. -/
def triggerFailWorld : OnEvent.CodeBuildWorld :=
  { startBuild := fun _ => .error "Project cannot be found." }

/-- A trigger-side world whose start-build call succeeds. -/
def triggerOkWorld : OnEvent.CodeBuildWorld := { startBuild := fun _ => .ok () }

/-- A create lifecycle event without a pre-existing physical resource id. -/
def triggerCreateEvent : OnEvent.Event :=
  { RequestType := "Create", PhysicalResourceId := none,
    LogicalResourceId := "BuildTriggerResource",
    ResourceProperties := some { ProjectName := some "project-1" } }

/-- A delete lifecycle event carrying its existing physical resource id. -/
def triggerDeleteEvent : OnEvent.Event :=
  { RequestType := "Delete", PhysicalResourceId := some "physical-id-1",
    LogicalResourceId := "BuildTriggerResource",
    ResourceProperties := some { ProjectName := some "project-1" } }

end Fixtures

namespace Builder

theorem splitOnChar_ne_nil (c : Char) (l : List Char) : splitOnChar c l ≠ [] := by
  cases l with
  | nil => simp [splitOnChar]
  | cons x xs =>
    simp only [splitOnChar]
    split
    · simp
    · split <;> simp

theorem splitOnChar_of_not_mem (c : Char) (l : List Char) (h : c ∉ l) :
    splitOnChar c l = [l] := by
  induction l with
  | nil => rfl
  | cons x xs ih =>
    have hx : ¬ x = c := by
      intro hxc
      exact h (hxc ▸ List.mem_cons_self x xs)
    have hxs : c ∉ xs := fun hm => h (List.mem_cons_of_mem _ hm)
    simp [splitOnChar, hx, ih hxs]

theorem splitOnChar_append_cons (c : Char) (a b : List Char) (h : c ∉ a) :
    splitOnChar c (a ++ c :: b) = a :: splitOnChar c b := by
  induction a with
  | nil => simp [splitOnChar]
  | cons x xs ih =>
    have hx : ¬ x = c := by
      intro hxc
      exact h (hxc ▸ List.mem_cons_self x xs)
    have hxs : c ∉ xs := fun hm => h (List.mem_cons_of_mem _ hm)
    simp only [List.cons_append, splitOnChar, List.append_eq, hx, if_false, ih hxs]

theorem splitKV_append (k v : List Char) (h : '=' ∉ k) :
    splitKV (k ++ '=' :: v) = (k, v) := by
  induction k with
  | nil => simp [splitKV]
  | cons x xs ih =>
    have hx : ¬ x = '=' := by
      intro hxc
      exact h (hxc ▸ List.mem_cons_self x xs)
    have hxs : '=' ∉ xs := fun hm => h (List.mem_cons_of_mem _ hm)
    simp [splitKV, hx, ih hxs]

theorem pairTokens_flatMap (l : List (List Char × List Char))
    (h : ∀ p ∈ l, '=' ∉ p.1) :
    pairTokens (l.flatMap fun p => ["--build-arg".toList, p.1 ++ '=' :: p.2]) = l := by
  induction l with
  | nil => rfl
  | cons p rest ih =>
    have hp : '=' ∉ p.1 := h p (List.mem_cons_self p rest)
    have hrest : ∀ q ∈ rest, '=' ∉ q.1 := fun q hq => h q (List.mem_cons_of_mem _ hq)
    show pairTokens ("--build-arg".toList :: (p.1 ++ '=' :: p.2) ::
        rest.flatMap fun q => ["--build-arg".toList, q.1 ++ '=' :: q.2]) = p :: rest
    simp only [pairTokens]
    rw [if_true, splitKV_append p.1 p.2 hp, ih hrest]

theorem pairTokens_flatMap_entries (l : List (String × String))
    (h : ∀ p ∈ l, '=' ∉ p.1.data) :
    pairTokens (l.flatMap fun kv => ["--build-arg".toList, kv.1.data ++ '=' :: kv.2.data])
      = l.map fun kv => (kv.1.data, kv.2.data) := by
  have h' : ∀ p ∈ l.map (fun kv : String × String => (kv.1.data, kv.2.data)), '=' ∉ p.1 := by
    intro p hp
    rcases List.mem_map.mp hp with ⟨kv, hkv, rfl⟩
    exact h kv hkv
  have h2 := pairTokens_flatMap (l.map fun kv => (kv.1.data, kv.2.data)) h'
  simpa [List.flatMap_map] using h2

theorem intercalate_go_data (s : String) (l : List String) (acc : String) :
    (String.intercalate.go acc s l).data
      = acc.data ++ (l.map fun a => s.data ++ a.data).flatten := by
  induction l generalizing acc with
  | nil => simp [String.intercalate.go]
  | cons a as ih =>
    simp [String.intercalate.go, ih, List.append_assoc]

theorem intercalate_space_data (l : List String) :
    (String.intercalate " " l).data = sepJoin ' ' (l.map String.data) := by
  cases l with
  | nil => rfl
  | cons a as =>
    show (String.intercalate.go a " " as).data = sepJoin ' ' (a.data :: as.map String.data)
    rw [intercalate_go_data]
    induction as generalizing a with
    | nil => simp [sepJoin]
    | cons b bs ih =>
      have hb := ih b
      simp only [List.map_cons, List.flatten_cons, sepJoin] at hb ⊢
      rw [← hb]
      simp [List.append_assoc]

theorem buildArgFragment_data (k v : String) :
    ("--build-arg " ++ k ++ "=" ++ v).data
      = "--build-arg".data ++ ' ' :: (k.data ++ '=' :: v.data) := by
  have hsp : "--build-arg ".data = "--build-arg".data ++ [' '] := by decide
  have heq : "=".data = ['='] := by decide
  simp only [String.data_append, hsp, heq, List.append_assoc, List.singleton_append,
    List.cons_append, List.nil_append]

theorem splitOnChar_buildArgs (l : List (String × String)) (hne : l ≠ [])
    (hwf : ∀ p ∈ l, ' ' ∉ p.1.data ∧ '=' ∉ p.1.data ∧ ' ' ∉ p.2.data) :
    splitOnChar ' ' (sepJoin ' ' (l.map fun kv => ("--build-arg " ++ kv.1 ++ "=" ++ kv.2).data))
      = l.flatMap fun kv => ["--build-arg".toList, kv.1.data ++ '=' :: kv.2.data] := by
  have hba : ' ' ∉ "--build-arg".data := by decide
  induction l with
  | nil => cases hne rfl
  | cons p rest ih =>
    obtain ⟨h1, h2, h3⟩ := hwf p (List.mem_cons_self p rest)
    have hkv : ' ' ∉ p.1.data ++ '=' :: p.2.data := by
      intro hm
      rcases List.mem_append.mp hm with hm | hm
      · exact h1 hm
      · rcases List.mem_cons.mp hm with hm | hm
        · exact absurd hm (by decide)
        · exact h3 hm
    cases rest with
    | nil =>
      simp only [List.map_cons, List.map_nil, sepJoin]
      rw [buildArgFragment_data, splitOnChar_append_cons _ _ _ hba,
        splitOnChar_of_not_mem _ _ hkv]
      rfl
    | cons q qs =>
      have hrest : ∀ r ∈ q :: qs, ' ' ∉ r.1.data ∧ '=' ∉ r.1.data ∧ ' ' ∉ r.2.data :=
        fun r hr => hwf r (List.mem_cons_of_mem _ hr)
      have hne' : (q :: qs : List (String × String)) ≠ [] := by simp
      simp only [List.map_cons, sepJoin]
      rw [buildArgFragment_data]
      rw [show (("--build-arg " ++ q.1 ++ "=" ++ q.2).data
            :: qs.map fun kv => ("--build-arg " ++ kv.1 ++ "=" ++ kv.2).data)
          = (q :: qs).map (fun kv => ("--build-arg " ++ kv.1 ++ "=" ++ kv.2).data) from rfl]
      generalize sepJoin ' '
          ((q :: qs).map fun kv => ("--build-arg " ++ kv.1 ++ "=" ++ kv.2).data) = S at ih ⊢
      rw [List.append_assoc]
      rw [show (' ' :: (p.1.data ++ '=' :: p.2.data)) ++ ' ' :: S
          = ' ' :: ((p.1.data ++ '=' :: p.2.data) ++ ' ' :: S) from rfl]
      rw [splitOnChar_append_cons _ _ _ hba, splitOnChar_append_cons _ _ _ hkv,
        ih hne' hrest]
      rfl

theorem parse_buildArgsString (l : List (String × String))
    (hwf : ∀ p ∈ l, ' ' ∉ p.1.data ∧ '=' ∉ p.1.data ∧ ' ' ∉ p.2.data) :
    parseBuildArgs (buildArgsString l) = l := by
  cases l with
  | nil => rfl
  | cons p rest =>
    show (pairTokens (splitOnChar ' ' (buildArgsString (p :: rest)).data)).map
        (fun q => (String.mk q.1, String.mk q.2)) = p :: rest
    have hdata : (buildArgsString (p :: rest)).data
        = sepJoin ' ' ((p :: rest).map fun kv => ("--build-arg " ++ kv.1 ++ "=" ++ kv.2).data) := by
      rw [buildArgsString, intercalate_space_data, List.map_map]
      rfl
    rw [hdata, splitOnChar_buildArgs (p :: rest) (by simp) hwf,
      pairTokens_flatMap_entries (p :: rest) (fun q hq => (hwf q hq).2.1),
      List.map_map]
    exact List.map_id'' (fun q => rfl) (p :: rest)

end Builder

/-! ## Claim theorems -/

/-- C1: For every poll invocation (Create/Update) whose most recent execution
has status `SUCCEEDED`, the completion poller returns `IsComplete: true` with
`Data.ImageTag` equal to the `imageTag` fixed at construct time, and that
returned tag is exactly the tag embedded in the buildspec's `build` and
`post_build` commands. -/
theorem succeeded_poll_returns_fixed_image_tag
    (tag : String) (props : Builder.BuilderProps) (w : IsComplete.AwsWorld)
    (event : IsComplete.PollEvent) (pn bid : String)
    (build : IsComplete.Build) (ids : List String) (builds : List IsComplete.Build)
    (hpn : event.ResourceProperties.bind (·.ProjectName) = some pn) (hpn' : pn ≠ "")
    (hrt : event.RequestType = "Create" ∨ event.RequestType = "Update")
    (hids : (w.listBuildsForProject pn).ids = some (bid :: ids))
    (hbuilds : (w.batchGetBuilds [bid]).builds = some (build :: builds))
    (hst : build.buildStatus = "SUCCEEDED") :
    (IsComplete.handler w (Builder.isCompleteEnvironment tag) event).1
        = .ok { IsComplete := true, Data := some { ImageTag := some tag } }
      ∧ (Builder.buildSpecObj tag props).build
        = [ "echo \"Building Docker image with tag " ++ tag ++ "...\"",
            "docker build " ++ Builder.buildArgsStringOf props.buildArgs
              ++ " -t $ECR_REPO_URI:" ++ tag ++ " $CODEBUILD_SRC_DIR" ]
      ∧ (Builder.buildSpecObj tag props).post_build
        = [ "echo \"Pushing Docker image with tag " ++ tag ++ "...\"",
            "docker push $ECR_REPO_URI:" ++ tag ] := by
  have hne : ¬ event.RequestType = "Delete" := by
    rcases hrt with h | h <;> rw [h] <;> decide
  refine ⟨?_, rfl, rfl⟩
  simp [IsComplete.handler, hpn, hpn', hne, hids, hbuilds, hst,
    Builder.isCompleteEnvironment]

/-- Witness for C1 at a concrete world, event and tag. -/
theorem succeeded_poll_returns_fixed_image_tag_witness :
    (IsComplete.handler (Fixtures.world Fixtures.succBuild (.error "unreachable"))
          (Builder.isCompleteEnvironment "tag-1") Fixtures.createEvent).1
        = .ok { IsComplete := true, Data := some { ImageTag := some "tag-1" } }
      ∧ (Builder.buildSpecObj "tag-1" Fixtures.sampleProps).build
        = [ "echo \"Building Docker image with tag tag-1...\"",
            "docker build --build-arg ENV=test -t $ECR_REPO_URI:tag-1 $CODEBUILD_SRC_DIR" ]
      ∧ (Builder.buildSpecObj "tag-1" Fixtures.sampleProps).post_build
        = [ "echo \"Pushing Docker image with tag tag-1...\"",
            "docker push $ECR_REPO_URI:tag-1" ] :=
  succeeded_poll_returns_fixed_image_tag "tag-1" Fixtures.sampleProps
    (Fixtures.world Fixtures.succBuild (.error "unreachable")) Fixtures.createEvent
    "project-1" "build-1" Fixtures.succBuild [] [] rfl (by decide) (Or.inl rfl) rfl rfl rfl

/-- C2: For every poll invocation whose most recent execution has a status in
FAILED/FAULT/STOPPED/TIMED_OUT and whose log group and stream are reachable,
the poller raises an error embedding the status and exactly the last five
log messages of the stream (fewer if the stream is shorter), joined with
newlines in chronological order.  The Log Store response is spec-modelled by
`logStoreTailEvents` (latest events first). -/
theorem failed_poll_error_embeds_last_five_logs
    (w : IsComplete.AwsWorld) (env : IsComplete.Env)
    (event : IsComplete.PollEvent) (pn bid g s : String)
    (build : IsComplete.Build) (ids : List String) (builds : List IsComplete.Build)
    (msgs : List String)
    (hpn : event.ResourceProperties.bind (·.ProjectName) = some pn) (hpn' : pn ≠ "")
    (hrt : ¬ event.RequestType = "Delete")
    (hids : (w.listBuildsForProject pn).ids = some (bid :: ids))
    (hbuilds : (w.batchGetBuilds [bid]).builds = some (build :: builds))
    (hst : build.buildStatus ∈ (["FAILED", "FAULT", "STOPPED", "TIMED_OUT"] : List String))
    (hlogs : build.logs = some { groupName := some g, streamName := some s })
    (hg : g ≠ "") (hs : s ≠ "")
    (hfetch : w.getLogEvents g s false 5
      = .ok { events := some (IsComplete.logStoreTailEvents msgs 5) }) :
    (IsComplete.handler w env event).1
      = .error ("Build failed with status " ++ build.buildStatus
          ++ ". Last logs:\n" ++ String.intercalate "\n" (msgs.rtake 5)) := by
  rw [List.rtake_eq_reverse_take_reverse]
  have hmap : List.map ((fun x : IsComplete.LogEvent => x.message) ∘ IsComplete.LogEvent.mk)
      msgs = msgs := List.map_id'' (fun _ => rfl) msgs
  simp only [List.mem_cons, List.not_mem_nil, or_false] at hst
  rcases hst with h | h | h | h <;>
    simp [IsComplete.handler, hpn, hpn', hrt, hids, hbuilds, h, hlogs, jsTruthy, hg, hs,
      hfetch, IsComplete.logStoreTailEvents, List.map_map, hmap]

/-- Witness for C2: a stream of 7 lines yields exactly the last 5, oldest to
newest. -/
theorem failed_poll_error_embeds_last_five_logs_witness :
    (IsComplete.handler (Fixtures.world Fixtures.failBuild Fixtures.fetchSeven)
          { IMAGE_TAG := some "tag-1" } Fixtures.createEvent).1
      = .error "Build failed with status FAILED. Last logs:\nline3\nline4\nline5\nline6\nline7" :=
  failed_poll_error_embeds_last_five_logs
    (Fixtures.world Fixtures.failBuild Fixtures.fetchSeven) { IMAGE_TAG := some "tag-1" }
    Fixtures.createEvent "project-1" "build-1" "log-group" "log-stream"
    Fixtures.failBuild [] [] Fixtures.sevenLogLines
    rfl (by decide) (by decide) rfl rfl (by decide) rfl (by decide) (by decide) rfl

/-- C3 counterexample: with a terminal failure status and a reachable log
location, a failing log fetch makes the poller propagate the fetch error
itself — the raised message is the SDK error and does not state the
build status, contradicting the claim that the status is never masked. -/
theorem log_fetch_failure_masks_status_cex :
    (IsComplete.handler (Fixtures.world Fixtures.failBuild (.error "AccessDenied"))
          { IMAGE_TAG := some "tag-1" } Fixtures.createEvent).1 = .error "AccessDenied"
      ∧ Builder.containsSubstring "AccessDenied" "FAILED" = false
      ∧ Fixtures.failBuild.buildStatus = "FAILED" :=
  ⟨rfl, by decide, rfl⟩

/-- C3 amended: when the execution fails terminally, a missing log location
degrades to a status-only error without fabricated log content, but a failing
log-fetch call propagates the fetch error unchanged (which can mask the
build-failure status). -/
theorem failed_poll_log_unavailable
    (w : IsComplete.AwsWorld) (env : IsComplete.Env)
    (event : IsComplete.PollEvent) (pn bid : String)
    (build : IsComplete.Build) (ids : List String) (builds : List IsComplete.Build)
    (hpn : event.ResourceProperties.bind (·.ProjectName) = some pn) (hpn' : pn ≠ "")
    (hrt : ¬ event.RequestType = "Delete")
    (hids : (w.listBuildsForProject pn).ids = some (bid :: ids))
    (hbuilds : (w.batchGetBuilds [bid]).builds = some (build :: builds))
    (hst : build.buildStatus ∈ (["FAILED", "FAULT", "STOPPED", "TIMED_OUT"] : List String)) :
    ((jsTruthy (build.logs.bind (·.groupName)) && jsTruthy (build.logs.bind (·.streamName)))
        = false →
      (IsComplete.handler w env event).1
        = .error ("Build failed with status: " ++ build.buildStatus ++ ", but no logs found."))
    ∧ (∀ g s e, build.logs = some { groupName := some g, streamName := some s } →
        g ≠ "" → s ≠ "" → w.getLogEvents g s false 5 = .error e →
        (IsComplete.handler w env event).1 = .error e) := by
  simp only [List.mem_cons, List.not_mem_nil, or_false] at hst
  constructor
  · intro hloc
    rcases hst with h | h | h | h <;>
      simp [IsComplete.handler, hpn, hpn', hrt, hids, hbuilds, h, hloc]
  · intro g s e hlogs hg hs hfetch
    rcases hst with h | h | h | h <;>
      simp [IsComplete.handler, hpn, hpn', hrt, hids, hbuilds, h, hlogs, jsTruthy, hg, hs,
        hfetch]

/-- Witness for the amended C3: a failed build with no reported log location
yields the status-only diagnostic. -/
theorem failed_poll_log_unavailable_witness :
    (IsComplete.handler (Fixtures.world Fixtures.failBuildNoLogs (.error "AccessDenied"))
          { IMAGE_TAG := some "tag-1" } Fixtures.createEvent).1
      = .error "Build failed with status: FAILED, but no logs found." :=
  (failed_poll_log_unavailable
    (Fixtures.world Fixtures.failBuildNoLogs (.error "AccessDenied"))
    { IMAGE_TAG := some "tag-1" } Fixtures.createEvent "project-1" "build-1"
    Fixtures.failBuildNoLogs [] [] rfl (by decide) (by decide) rfl rfl (by decide)).1 rfl

/-- C4: For every poll invocation with request type Delete and a well-formed
project name, the poller returns `IsComplete: true` immediately and issues no
CodeBuild or CloudWatch Logs call at all. -/
theorem delete_poll_returns_complete_without_calls
    (w : IsComplete.AwsWorld) (env : IsComplete.Env)
    (event : IsComplete.PollEvent) (pn : String)
    (hpn : event.ResourceProperties.bind (·.ProjectName) = some pn) (hpn' : pn ≠ "")
    (hrt : event.RequestType = "Delete") :
    IsComplete.handler w env event = (.ok { IsComplete := true, Data := none }, []) := by
  simp [IsComplete.handler, hpn, hpn', hrt]

/-- Witness for C4 at a concrete delete event and world. -/
theorem delete_poll_returns_complete_without_calls_witness :
    IsComplete.handler (Fixtures.world Fixtures.succBuild (.error "unreachable"))
        { IMAGE_TAG := some "tag-1" } Fixtures.deleteEvent
      = (.ok { IsComplete := true, Data := none }, []) :=
  delete_poll_returns_complete_without_calls
    (Fixtures.world Fixtures.succBuild (.error "unreachable")) { IMAGE_TAG := some "tag-1" }
    Fixtures.deleteEvent "project-1" rfl (by decide) rfl

/-- C5: For every trigger invocation where the start-build call fails, the
handler does not throw: it returns the resource identifier it was given with
an empty `Data` object and a `Reason` carrying the failure message; moreover
the start-build failure is the only error class the handler catches — the
only way any invocation propagates an error is the property access on an
absent `ResourceProperties`. -/
theorem trigger_start_failure_returns_reason
    (w : OnEvent.CodeBuildWorld) (event : OnEvent.Event)
    (rp : OnEvent.ResourceProps) (msg : String)
    (hrt : event.RequestType = "Create" ∨ event.RequestType = "Update")
    (hrp : event.ResourceProperties = some rp)
    (hfail : w.startBuild rp.ProjectName = .error msg) :
    OnEvent.handler w event
      = (.ok { PhysicalResourceId := jsOrElse event.PhysicalResourceId event.LogicalResourceId,
               Data := [], Reason := some msg },
         [.startBuild rp.ProjectName])
    ∧ ∀ (w' : OnEvent.CodeBuildWorld) (event' : OnEvent.Event) (e : String),
        (OnEvent.handler w' event').1 = .error e →
        event'.ResourceProperties = none
          ∧ e = "TypeError: Cannot read properties of undefined (reading 'ProjectName')" := by
  constructor
  · simp [OnEvent.handler, hrt, hrp, hfail]
  · intro w' event' e he
    by_cases h : event'.RequestType = "Create" ∨ event'.RequestType = "Update"
    · cases hrp' : event'.ResourceProperties with
      | none =>
        simp [OnEvent.handler, h, hrp'] at he
        exact ⟨rfl, he.symm⟩
      | some rp' =>
        cases hsb : w'.startBuild rp'.ProjectName with
        | error e' => simp [OnEvent.handler, h, hrp', hsb] at he
        | ok u => simp [OnEvent.handler, h, hrp', hsb] at he
    · simp [OnEvent.handler, h] at he

/-- Witness for C5: a rejected start-build call yields the identifier plus a
`Reason`, without throwing. -/
theorem trigger_start_failure_returns_reason_witness :
    OnEvent.handler Fixtures.triggerFailWorld Fixtures.triggerCreateEvent
      = (.ok { PhysicalResourceId := "BuildTriggerResource", Data := [],
               Reason := some "Project cannot be found." },
         [.startBuild (some "project-1")]) :=
  (trigger_start_failure_returns_reason Fixtures.triggerFailWorld Fixtures.triggerCreateEvent
    { ProjectName := some "project-1" } "Project cannot be found."
    (Or.inl rfl) rfl rfl).1

/-- C6: For every trigger invocation with request type Delete, no start-build
call is issued and the handler returns the incoming resource identifier
(its own physical id when one is present and nonempty) with an empty `Data`
payload and no `Reason`. -/
theorem trigger_delete_no_calls_identity
    (w : OnEvent.CodeBuildWorld) (event : OnEvent.Event)
    (hrt : event.RequestType = "Delete") :
    OnEvent.handler w event
      = (.ok { PhysicalResourceId := jsOrElse event.PhysicalResourceId event.LogicalResourceId,
               Data := [], Reason := none }, [])
    ∧ ∀ pid, event.PhysicalResourceId = some pid → pid ≠ "" →
        (OnEvent.handler w event).1
          = .ok { PhysicalResourceId := pid, Data := [], Reason := none } := by
  have h : ¬ (event.RequestType = "Create" ∨ event.RequestType = "Update") := by
    rw [hrt]; decide
  constructor
  · simp [OnEvent.handler, h]
  · intro pid hpid hpid'
    simp [OnEvent.handler, h, jsOrElse, hpid, hpid']

/-- Witness for C6: a delete event keeps its physical id and issues no call. -/
theorem trigger_delete_no_calls_identity_witness :
    OnEvent.handler Fixtures.triggerOkWorld Fixtures.triggerDeleteEvent
      = (.ok { PhysicalResourceId := "physical-id-1", Data := [], Reason := none }, []) :=
  (trigger_delete_no_calls_identity Fixtures.triggerOkWorld Fixtures.triggerDeleteEvent rfl).1

/-- C8: For every poll invocation whose most recent execution is
`IN_PROGRESS`, the handler returns `IsComplete: false` with no data, never
raises, and issues only the two read calls; being a pure function of the
world, repeated invocations in this state return the identical result. -/
theorem in_progress_poll_pure
    (w : IsComplete.AwsWorld) (env : IsComplete.Env)
    (event : IsComplete.PollEvent) (pn bid : String)
    (build : IsComplete.Build) (ids : List String) (builds : List IsComplete.Build)
    (hpn : event.ResourceProperties.bind (·.ProjectName) = some pn) (hpn' : pn ≠ "")
    (hrt : ¬ event.RequestType = "Delete")
    (hids : (w.listBuildsForProject pn).ids = some (bid :: ids))
    (hbuilds : (w.batchGetBuilds [bid]).builds = some (build :: builds))
    (hst : build.buildStatus = "IN_PROGRESS") :
    IsComplete.handler w env event
      = (.ok { IsComplete := false, Data := none },
         [.listBuildsForProject pn "DESCENDING" 1, .batchGetBuilds [bid]]) := by
  simp [IsComplete.handler, hpn, hpn', hrt, hids, hbuilds, hst]

/-- Witness for C8 at a concrete in-progress world. -/
theorem in_progress_poll_pure_witness :
    IsComplete.handler (Fixtures.world Fixtures.progressBuild (.error "unreachable"))
        { IMAGE_TAG := some "tag-1" } Fixtures.createEvent
      = (.ok { IsComplete := false, Data := none },
         [.listBuildsForProject "project-1" "DESCENDING" 1, .batchGetBuilds ["build-1"]]) :=
  in_progress_poll_pure (Fixtures.world Fixtures.progressBuild (.error "unreachable"))
    { IMAGE_TAG := some "tag-1" } Fixtures.createEvent "project-1" "build-1"
    Fixtures.progressBuild [] [] rfl (by decide) (by decide) rfl rfl rfl

/-- C9: For every poll invocation whose payload lacks `ProjectName`, the
handler raises the configuration error immediately, whatever the request
type, before any CodeBuild call is issued (the call trace is empty). -/
theorem missing_project_name_raises_immediately
    (w : IsComplete.AwsWorld) (env : IsComplete.Env) (event : IsComplete.PollEvent)
    (hpn : event.ResourceProperties.bind (·.ProjectName) = none) :
    IsComplete.handler w env event
      = (.error "Missing ProjectName in ResourceProperties", []) := by
  simp [IsComplete.handler, hpn]

/-- Witness for C9 at a concrete payload lacking the project name. -/
theorem missing_project_name_raises_immediately_witness :
    IsComplete.handler (Fixtures.world Fixtures.succBuild (.error "unreachable"))
        { IMAGE_TAG := some "tag-1" } Fixtures.missingNameEvent
      = (.error "Missing ProjectName in ResourceProperties", []) :=
  missing_project_name_raises_immediately
    (Fixtures.world Fixtures.succBuild (.error "unreachable")) { IMAGE_TAG := some "tag-1" }
    Fixtures.missingNameEvent rfl

/-- C7 counterexample: for a value containing spaces and a `--build-arg`
fragment, parsing the generated flag string does not recover the original
mapping — the round trip fails without well-formedness restrictions. -/
theorem buildargs_roundtrip_cex :
    Builder.parseBuildArgs (Builder.buildArgsString [("A", "x --build-arg B=y")])
      ≠ [("A", "x --build-arg B=y")] := by decide

/-- C7 amended: for every `buildArgs` entry list whose keys contain no space
and no `=` and whose values contain no space, the generated flag string
contains exactly one `--build-arg K=V` fragment per entry and parsing it
back recovers exactly the original mapping, independent of insertion order
(the identity holds for every ordering of the entries). -/
theorem buildargs_roundtrip_wellformed (l : List (String × String))
    (hwf : ∀ p ∈ l, ' ' ∉ p.1.data ∧ '=' ∉ p.1.data ∧ ' ' ∉ p.2.data) :
    Builder.parseBuildArgs (Builder.buildArgsString l) = l
    ∧ (Builder.pairTokens (Builder.splitOnChar ' ' (Builder.buildArgsString l).data)).length
        = l.length := by
  have h := Builder.parse_buildArgsString l hwf
  refine ⟨h, ?_⟩
  have h2 := congrArg List.length h
  simpa [Builder.parseBuildArgs] using h2

/-- Witness for the amended C7 on a two-entry mapping. -/
theorem buildargs_roundtrip_wellformed_witness :
    Builder.parseBuildArgs (Builder.buildArgsString [("TOKEN", "abc123"), ("ENV", "production")])
        = [("TOKEN", "abc123"), ("ENV", "production")]
    ∧ (Builder.pairTokens (Builder.splitOnChar ' '
          (Builder.buildArgsString [("TOKEN", "abc123"), ("ENV", "production")]).data)).length
        = 2 :=
  buildargs_roundtrip_wellformed [("TOKEN", "abc123"), ("ENV", "production")] (by decide)

/-- C10: Whenever the trigger handler returns a result, its
`PhysicalResourceId` is the event's physical id when present (and nonempty)
and the event's logical id otherwise, and its `Data` payload is the empty
object on every path, including the start-build failure path. -/
theorem trigger_result_identity_and_empty_data
    (w : OnEvent.CodeBuildWorld) (event : OnEvent.Event) (r : OnEvent.Result)
    (hr : (OnEvent.handler w event).1 = .ok r) :
    r.Data = []
    ∧ (∀ pid, event.PhysicalResourceId = some pid → pid ≠ "" → r.PhysicalResourceId = pid)
    ∧ (event.PhysicalResourceId = none → r.PhysicalResourceId = event.LogicalResourceId) := by
  have hid : r.PhysicalResourceId = jsOrElse event.PhysicalResourceId event.LogicalResourceId
      ∧ r.Data = [] := by
    by_cases h : event.RequestType = "Create" ∨ event.RequestType = "Update"
    · cases hrp' : event.ResourceProperties with
      | none => simp [OnEvent.handler, h, hrp'] at hr
      | some rp' =>
        cases hsb : w.startBuild rp'.ProjectName with
        | error e' =>
          simp [OnEvent.handler, h, hrp', hsb] at hr
          rw [← hr]
          exact ⟨rfl, rfl⟩
        | ok u =>
          simp [OnEvent.handler, h, hrp', hsb] at hr
          rw [← hr]
          exact ⟨rfl, rfl⟩
    · simp [OnEvent.handler, h] at hr
      rw [← hr]
      exact ⟨rfl, rfl⟩
  refine ⟨hid.2, ?_, ?_⟩
  · intro pid hpid hpid'
    rw [hid.1, hpid]
    simp [jsOrElse, hpid']
  · intro hpid
    rw [hid.1, hpid]
    rfl

/-- Witness for C10 on a successful create invocation without a pre-existing
physical id. -/
theorem trigger_result_identity_and_empty_data_witness :
    ({ PhysicalResourceId := "BuildTriggerResource", Data := [],
       Reason := none } : OnEvent.Result).Data = []
    ∧ ({ PhysicalResourceId := "BuildTriggerResource", Data := [],
         Reason := none } : OnEvent.Result).PhysicalResourceId
        = Fixtures.triggerCreateEvent.LogicalResourceId := by
  have h := trigger_result_identity_and_empty_data Fixtures.triggerOkWorld
    Fixtures.triggerCreateEvent
    { PhysicalResourceId := "BuildTriggerResource", Data := [], Reason := none } rfl
  exact ⟨h.1, h.2.2 rfl⟩
